import Mathlib

/-!
MGNREGA worker dashboard: the controller of `src/App.js`

A shallow embedding of the `App` component's state and of its event
handlers (`useEffect` load, `addWorker`, `deleteWorker`, the input and
select `onChange` handlers), followed by theorems about them.

* React state slots (`useState`) are the fields of `State`.
* A handler is a closure over the values of the render that created it; it
  is modelled as a function of that render's `State` (the captured values)
  acting, through the setters, on the current `World`.
* `axios` calls are modelled by the answer the store gives: `Except.ok data`
  for a fulfilled promise (`res.data`), `Except.error reason` for a rejected
  one.  Every request, `alert` and `console.error` is recorded in a log.
-/

namespace App

/-! ## Data model -/

/-- A record of the worker collection: `{ _id, name, village }`. -/
structure Worker where
  _id : String
  name : String
  village : String
deriving DecidableEq, Repr

/-- The five `useState` slots of `App` (lines 17-21). -/
structure State where
  workers : List Worker
  name : String
  village : String
  loading : Bool
  district : String
deriving DecidableEq, Repr

/-- The initial values given to `useState` (lines 17-21). -/
def initialState : State :=
  { workers := [], name := "", village := "", loading := true, district := "Madurai" }

/-- The constant `API_URL` (line 24). -/
def API_URL : String := "https://mgnrega-backend-raqv.onrender.com"

/-- Observable actions of a handler, in the order they happen. -/
inductive Effect where
  | httpGet (url : String)
  | httpPost (url : String) (name village : String)
  | httpDelete (url : String)
  | alert (msg : String)
  | consoleError (msg : String) (err : String)
deriving DecidableEq, Repr

/-- The mutable world a handler runs in: the React state and the log. -/
structure World where
  state : State
  log : List Effect
deriving DecidableEq, Repr

/-! ## JavaScript strings: `trim` and truthiness -/

/-- ECMAScript `WhiteSpace` and `LineTerminator` code points, the characters
`String.prototype.trim` strips. -/
def isJsWhiteSpace (c : Char) : Bool :=
  let n := c.toNat
  n == 0x09 || n == 0x0A || n == 0x0B || n == 0x0C || n == 0x0D || n == 0x20 ||
  n == 0xA0 || n == 0x1680 || (0x2000 ≤ n && n ≤ 0x200A) || n == 0x2028 ||
  n == 0x2029 || n == 0x202F || n == 0x205F || n == 0x3000 || n == 0xFEFF

/-- `String.prototype.trim`: strip white space from both ends. -/
def jsTrim (s : String) : String :=
  String.mk ((s.data.dropWhile isJsWhiteSpace).reverse.dropWhile isJsWhiteSpace).reverse

/-- The operator `!` on a string: only the empty string is falsy. -/
def jsNot (s : String) : Bool :=
  s.data.isEmpty

/-! ## Handlers as computations that may throw -/

/-- How a computation ends: normally with a value, or by throwing. -/
inductive Completion (α : Type) where
  | normal (value : α) (w : World)
  | thrown (reason : String) (w : World)

/-- A computation over the world that may throw. -/
def Js (α : Type) : Type := World → Completion α

/-- Sequencing: a throw skips the rest. -/
def Js.bind {α β : Type} (m : Js α) (f : α → Js β) : Js β := fun w =>
  match m w with
  | .normal a w1 => f a w1
  | .thrown e w1 => .thrown e w1

instance : Monad Js where
  pure a := fun w => .normal a w
  bind := Js.bind

/-- The statement `try { body } catch (err) { handler }`; also the promise
chain `body.catch(handler)`. -/
def Js.tryCatch {α : Type} (body : Js α) (handler : String → Js α) : Js α := fun w =>
  match body w with
  | .normal a w1 => .normal a w1
  | .thrown e w1 => handler e w1

instance : MonadExcept String Js where
  throw e := fun w => .thrown e w
  tryCatch := Js.tryCatch

/-- The world a computation leaves behind, however it ended. -/
def Completion.world {α : Type} : Completion α → World
  | .normal _ w => w
  | .thrown _ w => w

/-- Whether the computation ended without an exception escaping. -/
def Completion.returns {α : Type} : Completion α → Bool
  | .normal _ _ => true
  | .thrown _ _ => false

/-- Append an action to the log. -/
def emit (e : Effect) : Js Unit := fun w =>
  .normal () { w with log := w.log ++ [e] }

/-- The setter `setWorkers`. -/
def setWorkers (v : List Worker) : Js Unit := fun w =>
  .normal () { w with state := { w.state with workers := v } }

/-- The setter `setName`. -/
def setName (v : String) : Js Unit := fun w =>
  .normal () { w with state := { w.state with name := v } }

/-- The setter `setVillage`. -/
def setVillage (v : String) : Js Unit := fun w =>
  .normal () { w with state := { w.state with village := v } }

/-- The setter `setLoading`. -/
def setLoading (v : Bool) : Js Unit := fun w =>
  .normal () { w with state := { w.state with loading := v } }

/-- The setter `setDistrict`. -/
def setDistrict (v : String) : Js Unit := fun w =>
  .normal () { w with state := { w.state with district := v } }

/-- The call `alert(msg)`. -/
def alert (msg : String) : Js Unit := emit (.alert msg)

/-- The call `console.error(msg, err)`. -/
def consoleError (msg : String) (err : String) : Js Unit := emit (.consoleError msg err)

/-- Settling of an awaited promise: its value, or a throw of its reason. -/
def settle {α : Type} : Except String α → Js α
  | .ok data => pure data
  | .error reason => throw reason

/-- The call `axios.get(url)` awaited, the store answering `resp`. -/
def axiosGet (url : String) (resp : Except String (List Worker)) : Js (List Worker) := do
  emit (.httpGet url)
  settle resp

/-- The call `axios.post(url, { name, village })` awaited, the store
answering `resp`. -/
def axiosPost (url : String) (name village : String) (resp : Except String Worker) :
    Js Worker := do
  emit (.httpPost url name village)
  settle resp

/-- The call `axios.delete(url)` awaited, the store answering `resp` (the
body of a success is ignored). -/
def axiosDelete (url : String) (resp : Except String Unit) : Js Unit := do
  emit (.httpDelete url)
  settle resp

/-! ## The handlers of `App` -/

/-- The effect of `useEffect` (lines 71-82):
`axios.get(..).then(res => ..).catch(err => ..)`. -/
def load (resp : Except String (List Worker)) : Js Unit :=
  tryCatch
    (do
      let data ← axiosGet (API_URL ++ "/api/workers") resp
      setWorkers data
      setLoading false)
    (fun err => do
      consoleError "Error fetching workers:" err
      setLoading false)

/-- The handler `addWorker` (lines 84-101) of the render whose values are
`r`; `resp` is the store's answer to the create request. -/
def addWorker (r : State) (resp : Except String Worker) : Js Unit :=
  if jsNot (jsTrim r.name) || jsNot (jsTrim r.village) then
    alert "Please provide both name and village."
  else
    tryCatch
      (do
        let data ← axiosPost (API_URL ++ "/api/workers") r.name r.village resp
        setWorkers (r.workers ++ [data])
        setName ""
        setVillage "")
      (fun err => do
        consoleError "Error adding worker:" err
        alert "❌ Failed to add worker. Please try again.")

/-- The handler `deleteWorker` (lines 103-111) of the render whose values
are `r`; `resp` is the store's answer to the delete request. -/
def deleteWorker (r : State) (id : String) (resp : Except String Unit) : Js Unit :=
  tryCatch
    (do
      axiosDelete (API_URL ++ "/api/workers/" ++ id) resp
      setWorkers (r.workers.filter (fun w => w._id != id)))
    (fun err => do
      consoleError "Error deleting worker:" err
      alert "❌ Failed to delete worker. Please try again.")

/-- The `onChange` handler of the district `select` (line 249). -/
def selectDistrict (value : String) : Js Unit :=
  setDistrict value

/-- The `onChange` handler of the name input (line 155). -/
def changeName (value : String) : Js Unit :=
  setName value

/-- The `onChange` handler of the village input (line 168). -/
def changeVillage (value : String) : Js Unit :=
  setVillage value

/-- Run a handler from state `s` with an empty log. -/
def run {α : Type} (m : Js α) (s : State) : Completion α :=
  m { state := s, log := [] }

/-! ## The chart view (lines 26-57) -/

/-- The table `districtData` (lines 26-31), as the list of its own keys. -/
def districtData : List (String × List Nat) :=
  [("Madurai", [65, 78, 90, 80, 85]),
   ("Salem", [55, 68, 72, 69, 80]),
   ("Theni", [45, 60, 58, 62, 70]),
   ("Dindigul", [70, 82, 88, 79, 91])]

/-- The constant `labels` (lines 33-39). -/
def labels : List String :=
  ["Work Completed", "Funds Used", "Active Workers", "Ongoing Works", "New Projects"]

/-- The value of the property access `districtData[district]`: the row of
an own key, the value `Object.prototype` gives for an inherited key (a
function or, for `__proto__`, the prototype object), or `undefined`. -/
inductive Lookup where
  | row (values : List Nat)
  | inherited (key : String)
  | undefined
deriving DecidableEq, Repr

/-- The property names that `Object.prototype` answers in a standard
JavaScript environment. -/
def objectPrototypeKeys : List String :=
  ["constructor", "__defineGetter__", "__defineSetter__", "hasOwnProperty",
   "__lookupGetter__", "__lookupSetter__", "isPrototypeOf", "propertyIsEnumerable",
   "toString", "valueOf", "__proto__", "toLocaleString"]

/-- The property access `districtData[district]` (line 46) on the object
literal of lines 26-31: an own key first, then the prototype chain, which
for an object literal is `Object.prototype`; `proto` tells which names the
prototype answers. -/
def districtDataGet (proto : String → Bool) (district : String) : Lookup :=
  match districtData.lookup district with
  | some values => .row values
  | none => if proto district then .inherited district else .undefined

/-- One entry of `datasets`. -/
structure Dataset where
  label : String
  data : Lookup
  backgroundColor : List String
  borderRadius : Nat
deriving DecidableEq, Repr

/-- The object `chartData`. -/
structure ChartData where
  labels : List String
  datasets : List Dataset
deriving DecidableEq, Repr

/-- The value `chartData` of a render (lines 41-57), in an environment
whose `Object.prototype` answers the names `proto`. -/
def chartData (proto : String → Bool) (s : State) : ChartData :=
  { labels := labels,
    datasets :=
      [{ label := s.district ++ " Performance",
         data := districtDataGet proto s.district,
         backgroundColor := ["#4CAF50", "#2196F3", "#FFC107", "#FF5722", "#9C27B0"],
         borderRadius := 10 }] }

/-! ## Vocabulary of the specification -/

/-- A text that is empty or consists of white space only. -/
def IsBlank (s : String) : Prop :=
  ∀ c ∈ s.data, isJsWhiteSpace c = true

instance (s : String) : Decidable (IsBlank s) := by
  unfold IsBlank
  infer_instance

/-- A draft whose name and village are both non-empty after trimming. -/
def ValidDraft (s : State) : Prop :=
  ¬ IsBlank s.name ∧ ¬ IsBlank s.village

instance (s : State) : Decidable (ValidDraft s) := by
  unfold ValidDraft
  infer_instance

/-- Whether an action is a create request to the store. -/
def Effect.isCreateRequest : Effect → Bool
  | .httpPost _ _ _ => true
  | _ => false

/-- Whether an action is a request to the store at all. -/
def Effect.isRequest : Effect → Bool
  | .httpGet _ => true
  | .httpPost _ _ _ => true
  | .httpDelete _ => true
  | _ => false

/-- No two records of the collection share an `_id`. -/
def UniqueIds (ws : List Worker) : Prop :=
  (ws.map (fun w => w._id)).Nodup

instance (ws : List Worker) : Decidable (UniqueIds ws) := by
  unfold UniqueIds
  infer_instance

/-! ## The two halves of an asynchronous handler

An `async` handler runs up to its `await`, returns control to the event
loop, and is resumed when the awaited promise settles.  Other handlers may
run in between; the resumed half still sees the values of the render that
created the handler. -/

/-- The part of `addWorker` before the `await`: validation, then the create
request. The result tells whether a request is pending. -/
def addWorkerIssue (r : State) : Js Bool :=
  if jsNot (jsTrim r.name) || jsNot (jsTrim r.village) then do
    alert "Please provide both name and village."
    pure false
  else do
    emit (.httpPost (API_URL ++ "/api/workers") r.name r.village)
    pure true

/-- The part of `addWorker` after the `await`, the promise having settled
as `resp`. -/
def addWorkerResume (r : State) (resp : Except String Worker) : Js Unit :=
  tryCatch
    (do
      let data ← settle resp
      setWorkers (r.workers ++ [data])
      setName ""
      setVillage "")
    (fun err => do
      consoleError "Error adding worker:" err
      alert "❌ Failed to add worker. Please try again.")

/-- The part of `deleteWorker` before the `await`: the delete request. -/
def deleteWorkerIssue (id : String) : Js Unit :=
  emit (.httpDelete (API_URL ++ "/api/workers/" ++ id))

/-- The part of `deleteWorker` after the `await`, the promise having
settled as `resp`. -/
def deleteWorkerResume (r : State) (id : String) (resp : Except String Unit) : Js Unit :=
  tryCatch
    (do
      settle resp
      setWorkers (r.workers.filter (fun w => w._id != id)))
    (fun err => do
      consoleError "Error deleting worker:" err
      alert "❌ Failed to delete worker. Please try again.")

/-- Both handlers are invoked in the render `r`; the create response
arrives first, then the delete response. -/
def raceCreateFirst (r : State) (id : String) (ra : Except String Worker)
    (rd : Except String Unit) : Js Unit := do
  let pending ← addWorkerIssue r
  deleteWorkerIssue id
  if pending then addWorkerResume r ra
  deleteWorkerResume r id rd

/-- Both handlers are invoked in the render `r`; the delete response
arrives first, then the create response. -/
def raceDeleteFirst (r : State) (id : String) (ra : Except String Worker)
    (rd : Except String Unit) : Js Unit := do
  let pending ← addWorkerIssue r
  deleteWorkerIssue id
  deleteWorkerResume r id rd
  if pending then addWorkerResume r ra

/-! ## Sequences of events -/

/-- An event of the controller, each handled to completion before the
next: the settling of the initial load, a click on Add or Delete with the
store's answer, a change of the select or of an input. -/
inductive Event where
  | load (resp : Except String (List Worker))
  | addWorker (resp : Except String Worker)
  | deleteWorker (id : String) (resp : Except String Unit)
  | selectDistrict (value : String)
  | changeName (value : String)
  | changeVillage (value : String)

/-- The handler an event runs, created by the render of state `s`. -/
def handle (s : State) : Event → Js Unit
  | .load resp => load resp
  | .addWorker resp => addWorker s resp
  | .deleteWorker id resp => deleteWorker s id resp
  | .selectDistrict value => selectDistrict value
  | .changeName value => changeName value
  | .changeVillage value => changeVillage value

/-- The state after an event. -/
def step (s : State) (e : Event) : State :=
  (run (handle s e) s).world.state

/-- The state after a sequence of events. -/
def runEvents (s : State) : List Event → State
  | [] => s
  | e :: es => runEvents (step s e) es

/-- The store's answer carried by an event keeps ids distinct: a list
answer has pairwise distinct ids, a created record has an id that no
record of the current collection has. -/
def Event.respectsIds (s : State) : Event → Bool
  | .load (.ok data) => decide (UniqueIds data)
  | .addWorker (.ok data) => decide (data._id ∉ s.workers.map (fun w => w._id))
  | _ => true

/-- Every answer of the store along the sequence keeps ids distinct. -/
def traceRespectsIds (s : State) : List Event → Bool
  | [] => true
  | e :: es => e.respectsIds s && traceRespectsIds (step s e) es


/-! ## Handlers in flight

The general course of events: a click runs a handler up to its `await` and
leaves it in flight; the store's answers arrive later, in any order, and
each resumes its handler with the values of the render that created it. -/

/-- The part of the `useEffect` callback that runs at once: the list
request. -/
def loadIssue : Js Unit :=
  emit (.httpGet (API_URL ++ "/api/workers"))

/-- The `then` and `catch` callbacks of the `useEffect` chain, the promise
having settled as `resp`. -/
def loadResume (resp : Except String (List Worker)) : Js Unit :=
  tryCatch
    (do
      let data ← settle resp
      setWorkers data
      setLoading false)
    (fun err => do
      consoleError "Error fetching workers:" err
      setLoading false)

/-- A handler waiting for the store, with the values of the render that
created it. -/
inductive Pending where
  | load
  | addWorker (r : State)
  | deleteWorker (r : State) (id : String)
deriving DecidableEq, Repr

/-- The collection a handler in flight will compute its update from. -/
def Pending.workers : Pending → List Worker
  | .load => []
  | .addWorker r => r.workers
  | .deleteWorker r _ => r.workers

/-- The page: the current world and the handlers in flight. -/
structure System where
  world : World
  pending : List Pending
deriving DecidableEq, Repr

/-- The page after mounting: initial state, the list request issued. -/
def initialSystem : System :=
  { world := (loadIssue { state := initialState, log := [] }).world, pending := [.load] }

/-- What can happen to the page: a click, a change of an input or of the
select, or the arrival of the store's answer for the handler at position
`i` of those in flight. -/
inductive Action where
  | clickAdd
  | clickDelete (id : String)
  | selectDistrict (value : String)
  | changeName (value : String)
  | changeVillage (value : String)
  | loadSettles (i : Nat) (resp : Except String (List Worker))
  | addSettles (i : Nat) (resp : Except String Worker)
  | deleteSettles (i : Nat) (resp : Except String Unit)

/-- The page after an action. An answer for a position that holds no
handler of that kind changes nothing. -/
def asyncStep (sys : System) : Action → System
  | .clickAdd =>
    match addWorkerIssue sys.world.state sys.world with
    | .normal true w => { world := w, pending := sys.pending ++ [.addWorker sys.world.state] }
    | .normal false w => { sys with world := w }
    | .thrown _ w => { sys with world := w }
  | .clickDelete id =>
    { world := (deleteWorkerIssue id sys.world).world,
      pending := sys.pending ++ [.deleteWorker sys.world.state id] }
  | .selectDistrict value => { sys with world := (selectDistrict value sys.world).world }
  | .changeName value => { sys with world := (changeName value sys.world).world }
  | .changeVillage value => { sys with world := (changeVillage value sys.world).world }
  | .loadSettles i resp =>
    match sys.pending[i]? with
    | some .load =>
      { world := (loadResume resp sys.world).world, pending := sys.pending.eraseIdx i }
    | _ => sys
  | .addSettles i resp =>
    match sys.pending[i]? with
    | some (.addWorker r) =>
      { world := (addWorkerResume r resp sys.world).world, pending := sys.pending.eraseIdx i }
    | _ => sys
  | .deleteSettles i resp =>
    match sys.pending[i]? with
    | some (.deleteWorker r id) =>
      { world := (deleteWorkerResume r id resp sys.world).world,
        pending := sys.pending.eraseIdx i }
    | _ => sys

/-- The page after a sequence of actions. -/
def asyncRun (sys : System) : List Action → System
  | [] => sys
  | a :: as => asyncRun (asyncStep sys a) as

/-- The store's answer carried by an action keeps ids distinct: a list
answer has pairwise distinct ids; a created record has an id that no
record has in the collection of the render that invoked `addWorker`, the
collection the handler appends to. -/
def Action.respectsIds (sys : System) : Action → Bool
  | .loadSettles _ (.ok data) => decide (UniqueIds data)
  | .addSettles i (.ok data) =>
    match sys.pending[i]? with
    | some (.addWorker r) => decide (data._id ∉ r.workers.map (fun w => w._id))
    | _ => true
  | _ => true

/-- Every answer of the store along the sequence keeps ids distinct. -/
def actionsRespectIds (sys : System) : List Action → Bool
  | [] => true
  | a :: as => a.respectsIds sys && actionsRespectIds (asyncStep sys a) as

/-- Ids are pairwise distinct in the displayed collection and in the
collection held by every handler in flight. -/
def System.UniqueIds (sys : System) : Prop :=
  App.UniqueIds sys.world.state.workers ∧ ∀ p ∈ sys.pending, App.UniqueIds p.workers

/-! ## Lemmas on the handlers -/

theorem dropWhile_forall_iff {α : Type} (p : α → Bool) (l : List α) :
    (∀ x ∈ l.dropWhile p, p x = true) ↔ ∀ x ∈ l, p x = true := by
  induction l with
  | nil => simp
  | cons a t ih =>
    by_cases h : p a = true
    · simp [List.dropWhile_cons, h, ih]
    · simp [List.dropWhile_cons, h]

/-- Trimming leaves the empty string exactly for a blank text. -/
theorem jsNot_jsTrim_iff (s : String) : jsNot (jsTrim s) = true ↔ IsBlank s := by
  unfold jsNot jsTrim IsBlank
  simp only [List.isEmpty_iff, List.reverse_eq_nil_iff, List.dropWhile_eq_nil_iff,
    List.mem_reverse]
  exact dropWhile_forall_iff _ _

/-- A text is blank exactly when trimming it leaves the empty string. -/
theorem jsTrim_eq_empty_iff (s : String) : jsTrim s = "" ↔ IsBlank s := by
  rw [← jsNot_jsTrim_iff]
  unfold jsNot
  generalize jsTrim s = t
  cases t with
  | mk l =>
    rw [List.isEmpty_iff]
    constructor
    · intro h
      exact congrArg String.data h
    · intro h
      have hl : l = [] := h
      rw [hl]

/-- A draft is valid exactly when both fields are non-empty after
trimming. -/
theorem validDraft_iff_trim (s : State) :
    ValidDraft s ↔ (jsTrim s.name ≠ "" ∧ jsTrim s.village ≠ "") := by
  unfold ValidDraft
  rw [ne_eq, ne_eq, jsTrim_eq_empty_iff, jsTrim_eq_empty_iff]

/-- The guard of `addWorker` fails exactly for a valid draft. -/
theorem guard_false_iff (r : State) :
    (jsNot (jsTrim r.name) || jsNot (jsTrim r.village)) = false ↔ ValidDraft r := by
  unfold ValidDraft
  rw [← jsNot_jsTrim_iff, ← jsNot_jsTrim_iff]
  cases jsNot (jsTrim r.name) <;> cases jsNot (jsTrim r.village) <;> simp

/-- The guard of `addWorker` holds exactly when a field is blank. -/
theorem guard_true_iff (r : State) :
    (jsNot (jsTrim r.name) || jsNot (jsTrim r.village)) = true ↔
      (IsBlank r.name ∨ IsBlank r.village) := by
  rw [← jsNot_jsTrim_iff, ← jsNot_jsTrim_iff]
  cases jsNot (jsTrim r.name) <;> cases jsNot (jsTrim r.village) <;> simp

theorem addWorker_rejected (r : State) (resp : Except String Worker) (w : World)
    (h : IsBlank r.name ∨ IsBlank r.village) :
    addWorker r resp w =
      .normal () { w with log := w.log ++ [.alert "Please provide both name and village."] } := by
  have hg := (guard_true_iff r).mpr h
  simp only [addWorker, hg, if_true]
  rfl

theorem addWorker_ok (r : State) (data : Worker) (w : World) (h : ValidDraft r) :
    addWorker r (.ok data) w =
      .normal ()
        { state := { w.state with workers := r.workers ++ [data], name := "", village := "" },
          log := w.log ++ [.httpPost (API_URL ++ "/api/workers") r.name r.village] } := by
  have hg := (guard_false_iff r).mpr h
  simp only [addWorker, hg]
  rfl

theorem addWorker_error (r : State) (err : String) (w : World) (h : ValidDraft r) :
    addWorker r (.error err) w =
      .normal ()
        { w with log := w.log ++ [.httpPost (API_URL ++ "/api/workers") r.name r.village] ++
            [.consoleError "Error adding worker:" err] ++
            [.alert "❌ Failed to add worker. Please try again."] } := by
  have hg := (guard_false_iff r).mpr h
  simp only [addWorker, hg]
  rfl

theorem deleteWorker_ok (r : State) (id : String) (w : World) :
    deleteWorker r id (.ok ()) w =
      .normal ()
        { state := { w.state with workers := r.workers.filter (fun x => x._id != id) },
          log := w.log ++ [.httpDelete (API_URL ++ "/api/workers/" ++ id)] } := rfl

theorem deleteWorker_error (r : State) (id : String) (err : String) (w : World) :
    deleteWorker r id (.error err) w =
      .normal ()
        { w with log := w.log ++ [.httpDelete (API_URL ++ "/api/workers/" ++ id)] ++
            [.consoleError "Error deleting worker:" err] ++
            [.alert "❌ Failed to delete worker. Please try again."] } := rfl

theorem load_ok (data : List Worker) (w : World) :
    load (.ok data) w =
      .normal ()
        { state := { w.state with workers := data, loading := false },
          log := w.log ++ [.httpGet (API_URL ++ "/api/workers")] } := rfl

theorem load_error (err : String) (w : World) :
    load (.error err) w =
      .normal ()
        { state := { w.state with loading := false },
          log := w.log ++ [.httpGet (API_URL ++ "/api/workers")] ++
            [.consoleError "Error fetching workers:" err] } := rfl

/-- The handler `addWorker` is its first half followed, when a request is
pending, by its second half. -/
theorem addWorker_eq_halves (r : State) (resp : Except String Worker) :
    addWorker r resp =
      (do
        let pending ← addWorkerIssue r
        if pending then addWorkerResume r resp) := by
  funext w
  by_cases hg : (jsNot (jsTrim r.name) || jsNot (jsTrim r.village)) = true
  · simp only [addWorker, addWorkerIssue, hg, if_true]
    rfl
  · have hg2 : (jsNot (jsTrim r.name) || jsNot (jsTrim r.village)) = false := by
      simpa using hg
    simp only [addWorker, addWorkerIssue, hg2]
    cases resp <;> rfl

/-- The handler `deleteWorker` is its first half followed by its second. -/
theorem deleteWorker_eq_halves (r : State) (id : String) (resp : Except String Unit) :
    deleteWorker r id resp =
      (do
        deleteWorkerIssue id
        deleteWorkerResume r id resp) := by
  funext w
  cases resp <;> rfl


/-! ## Creating a worker -/

/-- C1 (as stated, refuted): with the draft ("Devi", "Usilampatti") valid
and the store answering the create request with the record
`{_id: "2", name: "DEVI", village: "Usilampatti"}`, the last element of the
collection after `addWorker` is that record, whose name is not the
submitted name. -/
theorem addWorker_last_not_submitted :
    ValidDraft { initialState with name := "Devi", village := "Usilampatti" } ∧
    (run (addWorker { initialState with name := "Devi", village := "Usilampatti" }
        (.ok { _id := "2", name := "DEVI", village := "Usilampatti" }))
      { initialState with name := "Devi", village := "Usilampatti" }).world.state.workers.getLast?
      = some { _id := "2", name := "DEVI", village := "Usilampatti" } ∧
    ¬ ((Worker.mk "2" "DEVI" "Usilampatti").name = "Devi" ∧
       (Worker.mk "2" "DEVI" "Usilampatti").village = "Usilampatti") := by
  decide

/-- C1 (amended): for every state with a valid draft and every record the
store answers the create request with, the collection after `addWorker` is
exactly one longer than before and its last element is the answered
record; that element has the submitted name and village exactly when the
store's answer carries them. -/
theorem addWorker_length_and_last (s : State) (data : Worker) (h : ValidDraft s) :
    (run (addWorker s (.ok data)) s).world.state.workers.length = s.workers.length + 1 ∧
    (run (addWorker s (.ok data)) s).world.state.workers.getLast? = some data ∧
    ∀ last, (run (addWorker s (.ok data)) s).world.state.workers.getLast? = some last →
      ((last.name = s.name ∧ last.village = s.village) ↔
        (data.name = s.name ∧ data.village = s.village)) := by
  have hrun : (run (addWorker s (.ok data)) s).world.state.workers = s.workers ++ [data] := by
    unfold run
    rw [addWorker_ok s data _ h]
    rfl
  rw [hrun]
  refine ⟨by simp, by simp, ?_⟩
  intro last hl
  simp at hl
  subst hl
  rfl

/-- Witness of C1 (amended): the scenario of the specification. -/
theorem addWorker_length_and_last_witness :
    ValidDraft { initialState with name := "Devi", village := "Usilampatti" } ∧
    (run (addWorker { initialState with name := "Devi", village := "Usilampatti" }
        (.ok { _id := "2", name := "Devi", village := "Usilampatti" }))
      { initialState with name := "Devi", village := "Usilampatti" }).world.state.workers.length
      = 0 + 1 :=
  ⟨by decide,
   (addWorker_length_and_last { initialState with name := "Devi", village := "Usilampatti" }
      { _id := "2", name := "Devi", village := "Usilampatti" } (by decide)).1⟩


/-! ## Deleting a worker -/

/-- The collection after a successful `deleteWorker` run in state `s`. -/
theorem deleteWorker_workers (s : State) (id : String) :
    (run (deleteWorker s id (.ok ())) s).world.state.workers =
      s.workers.filter (fun w => w._id != id) := rfl

/-- The records removed by a filter on the id are counted by `countP`. -/
theorem length_filter_ne_add_countP (ws : List Worker) (id : String) :
    (ws.filter (fun w => w._id != id)).length + ws.countP (fun w => w._id == id) =
      ws.length := by
  induction ws with
  | nil => rfl
  | cons a t ih =>
    by_cases h : a._id = id
    · simp [List.filter_cons, List.countP_cons, h] at ih ⊢
      omega
    · simp [List.filter_cons, List.countP_cons, h] at ih ⊢
      omega

/-- With distinct ids, exactly one record has an id that occurs. -/
theorem countP_id_eq_one (ws : List Worker) (id : String) (hu : UniqueIds ws)
    (hmem : ∃ w ∈ ws, w._id = id) : ws.countP (fun w => w._id == id) = 1 := by
  induction ws with
  | nil => simp at hmem
  | cons a t ih =>
    unfold UniqueIds at hu
    simp only [List.map_cons, List.nodup_cons, List.mem_map, not_exists, not_and] at hu
    by_cases h : a._id = id
    · have ht : t.countP (fun w => w._id == id) = 0 := by
        rw [List.countP_eq_zero]
        intro x hx hxid
        exact hu.1 x hx ((by simpa using hxid : x._id = id).trans h.symm)
      simp [List.countP_cons, h, ht]
    · have hmem2 : ∃ w ∈ t, w._id = id := by
        obtain ⟨w, hw, hwid⟩ := hmem
        rcases List.mem_cons.mp hw with rfl | hw
        · exact absurd hwid h
        · exact ⟨w, hw, hwid⟩
      simp [List.countP_cons, h, ih hu.2 hmem2]

/-- C2 (as stated, refuted): in the collection of two records that both
have id "1", id "1" occurs, yet a successful `deleteWorker("1")` leaves a
collection of length 0, which is not one less than 2. -/
theorem deleteWorker_length_not_one_less :
    (∃ w ∈ ({ initialState with
              workers := [⟨"1", "Kumar", "Alanganallur"⟩, ⟨"1", "Devi", "Usilampatti"⟩] }
            : State).workers, w._id = "1") ∧
    (run (deleteWorker { initialState with
              workers := [⟨"1", "Kumar", "Alanganallur"⟩, ⟨"1", "Devi", "Usilampatti"⟩] }
            "1" (.ok ()))
        { initialState with
              workers := [⟨"1", "Kumar", "Alanganallur"⟩, ⟨"1", "Devi", "Usilampatti"⟩] }
      ).world.state.workers.length + 1 ≠ 2 := by
  decide

/-- C2 (amended): for every collection and every id that occurs in it, a
successful `deleteWorker(id)` yields a collection in which no record has
that id and whose length is less than before by the number of records
that had that id, which is at least one; it is exactly one less when the
ids of the collection are pairwise distinct. -/
theorem deleteWorker_absent_and_length (s : State) (id : String)
    (hmem : ∃ w ∈ s.workers, w._id = id) :
    (∀ w ∈ (run (deleteWorker s id (.ok ())) s).world.state.workers, w._id ≠ id) ∧
    (run (deleteWorker s id (.ok ())) s).world.state.workers.length +
        s.workers.countP (fun w => w._id == id) = s.workers.length ∧
    1 ≤ s.workers.countP (fun w => w._id == id) ∧
    (UniqueIds s.workers →
      (run (deleteWorker s id (.ok ())) s).world.state.workers.length + 1 =
        s.workers.length) := by
  rw [deleteWorker_workers]
  have hlen := length_filter_ne_add_countP s.workers id
  refine ⟨?_, hlen, ?_, ?_⟩
  · intro w hw
    simpa using (List.mem_filter.mp hw).2
  · obtain ⟨w, hw, hwid⟩ := hmem
    exact List.countP_pos_iff.mpr ⟨w, hw, by simpa using hwid⟩
  · intro hu
    rw [countP_id_eq_one s.workers id hu hmem] at hlen
    exact hlen

/-- Witness of C2 (amended): the scenario `DeleteWorker("1")` of the
specification on a collection of two records with distinct ids. -/
theorem deleteWorker_absent_and_length_witness :
    (∃ w ∈ ({ initialState with
              workers := [⟨"1", "Kumar", "Alanganallur"⟩, ⟨"2", "Devi", "Usilampatti"⟩] }
            : State).workers, w._id = "1") ∧
    UniqueIds ({ initialState with
              workers := [⟨"1", "Kumar", "Alanganallur"⟩, ⟨"2", "Devi", "Usilampatti"⟩] }
            : State).workers ∧
    (run (deleteWorker { initialState with
              workers := [⟨"1", "Kumar", "Alanganallur"⟩, ⟨"2", "Devi", "Usilampatti"⟩] }
            "1" (.ok ()))
        { initialState with
              workers := [⟨"1", "Kumar", "Alanganallur"⟩, ⟨"2", "Devi", "Usilampatti"⟩] }
      ).world.state.workers.length + 1 = 2 :=
  ⟨by decide, by decide,
   (deleteWorker_absent_and_length
      { initialState with
          workers := [⟨"1", "Kumar", "Alanganallur"⟩, ⟨"2", "Devi", "Usilampatti"⟩] }
      "1" (by decide)).2.2.2 (by decide)⟩


/-! ## Validation and failure -/

/-- C3: when the draft name or the draft village is blank (empty or white
space only), `addWorker` returns normally, issues no request to the store
whatever the store would answer, and leaves the whole state (collection
and draft) as it was; conversely, if the log of `addWorker` contains a
create request, both fields are non-blank. -/
theorem addWorker_blank_no_request (s : State) (resp : Except String Worker) :
    ((IsBlank s.name ∨ IsBlank s.village) →
      (run (addWorker s resp) s).returns = true ∧
      (run (addWorker s resp) s).world.state = s ∧
      (run (addWorker s resp) s).world.log.any Effect.isRequest = false) ∧
    ((run (addWorker s resp) s).world.log.any Effect.isCreateRequest = true →
      ValidDraft s) := by
  constructor
  · intro h
    unfold run
    rw [addWorker_rejected s resp _ h]
    exact ⟨rfl, rfl, rfl⟩
  · intro hreq
    by_contra hv
    have h : IsBlank s.name ∨ IsBlank s.village := by
      unfold ValidDraft at hv
      by_cases hn : IsBlank s.name
      · exact Or.inl hn
      · exact Or.inr (by_contra fun hvil => hv ⟨hn, hvil⟩)
    unfold run at hreq
    rw [addWorker_rejected s resp _ h] at hreq
    simp [Completion.world, Effect.isCreateRequest] at hreq

/-- Witness of C3: the three drafts of the specification, ("", "x"),
("x", "") and ("  ", "  "), against a store that would answer with a
record. -/
theorem addWorker_blank_no_request_witness :
    ((IsBlank "" ∨ IsBlank "x") ∧
      (run (addWorker { initialState with name := "", village := "x" } (.ok ⟨"2", "", "x"⟩))
        { initialState with name := "", village := "x" }).world.state
        = { initialState with name := "", village := "x" }) ∧
    ((IsBlank "x" ∨ IsBlank "") ∧
      (run (addWorker { initialState with name := "x", village := "" } (.ok ⟨"2", "x", ""⟩))
        { initialState with name := "x", village := "" }).world.log.any Effect.isRequest
        = false) ∧
    ((IsBlank "  " ∨ IsBlank "  ") ∧
      (run (addWorker { initialState with name := "  ", village := "  " }
          (.ok ⟨"2", "  ", "  "⟩))
        { initialState with name := "  ", village := "  " }).world.state
        = { initialState with name := "  ", village := "  " }) ∧
    ((run (addWorker { initialState with name := "Devi", village := "Usilampatti" }
          (.ok ⟨"2", "Devi", "Usilampatti"⟩))
        { initialState with name := "Devi", village := "Usilampatti" }
      ).world.log.any Effect.isCreateRequest = true ∧
      ValidDraft { initialState with name := "Devi", village := "Usilampatti" }) :=
  ⟨⟨by decide,
    ((addWorker_blank_no_request { initialState with name := "", village := "x" }
      (.ok ⟨"2", "", "x"⟩)).1 (by decide)).2.1⟩,
   ⟨by decide,
    ((addWorker_blank_no_request { initialState with name := "x", village := "" }
      (.ok ⟨"2", "x", ""⟩)).1 (by decide)).2.2⟩,
   ⟨by decide,
    ((addWorker_blank_no_request { initialState with name := "  ", village := "  " }
      (.ok ⟨"2", "  ", "  "⟩)).1 (by decide)).2.1⟩,
   ⟨by decide,
    (addWorker_blank_no_request { initialState with name := "Devi", village := "Usilampatti" }
      (.ok ⟨"2", "Devi", "Usilampatti"⟩)).2 (by decide)⟩⟩

/-- C4: when the store's create call fails, `addWorker` returns normally
and leaves the whole state unchanged (collection, draft name and draft
village retained); when the store's delete call fails, `deleteWorker(id)`
returns normally and leaves the state, hence the collection, unchanged,
for every id. This holds for the handler of any render `r` resumed in any
world `w`, in particular for `r` the current state. -/
theorem store_failure_leaves_state (r : State) (w : World) (err : String) :
    ((addWorker r (.error err) w).returns = true ∧
      (addWorker r (.error err) w).world.state = w.state) ∧
    (∀ id, (deleteWorker r id (.error err) w).returns = true ∧
      (deleteWorker r id (.error err) w).world.state = w.state) ∧
    ((run (addWorker r (.error err)) r).world.state = r ∧
      ∀ id, (run (deleteWorker r id (.error err)) r).world.state.workers = r.workers) := by
  have hadd : ∀ v : World, (addWorker r (.error err) v).returns = true ∧
      (addWorker r (.error err) v).world.state = v.state := by
    intro v
    by_cases h : ValidDraft r
    · rw [addWorker_error r err v h]
      exact ⟨rfl, rfl⟩
    · have hb : IsBlank r.name ∨ IsBlank r.village := by
        unfold ValidDraft at h
        by_cases hn : IsBlank r.name
        · exact Or.inl hn
        · exact Or.inr (by_contra fun hvil => h ⟨hn, hvil⟩)
      rw [addWorker_rejected r _ v hb]
      exact ⟨rfl, rfl⟩
  refine ⟨hadd w, fun id => ⟨rfl, rfl⟩, (hadd _).2, fun id => rfl⟩


/-! ## Uniqueness of ids -/

/-- Filtering keeps ids pairwise distinct. -/
theorem uniqueIds_filter (ws : List Worker) (p : Worker → Bool) (h : UniqueIds ws) :
    UniqueIds (ws.filter p) := by
  unfold UniqueIds at h ⊢
  exact List.Nodup.sublist (List.Sublist.map _ (List.filter_sublist ws)) h

/-- Appending a record with a new id keeps ids pairwise distinct. -/
theorem uniqueIds_append_fresh (ws : List Worker) (data : Worker) (h : UniqueIds ws)
    (hfresh : data._id ∉ ws.map (fun w => w._id)) : UniqueIds (ws ++ [data]) := by
  unfold UniqueIds at h ⊢
  rw [List.map_append, List.nodup_append]
  refine ⟨h, by simp, ?_⟩
  intro a ha hb
  simp only [List.map_cons, List.map_nil, List.mem_singleton] at hb
  exact hfresh (hb ▸ ha)

/-- Under an answer of the store that keeps ids distinct, an event keeps
the ids of the collection pairwise distinct. -/
theorem step_uniqueIds (s : State) (e : Event) (hu : UniqueIds s.workers)
    (he : e.respectsIds s = true) : UniqueIds (step s e).workers := by
  cases e with
  | load resp =>
    cases resp with
    | error err => exact hu
    | ok data => simpa [Event.respectsIds] using he
  | addWorker resp =>
    by_cases hv : ValidDraft s
    · cases resp with
      | error err =>
        simp only [step, handle, run]
        rw [addWorker_error s err _ hv]
        exact hu
      | ok data =>
        simp only [step, handle, run]
        rw [addWorker_ok s data _ hv]
        exact uniqueIds_append_fresh s.workers data hu (by simpa [Event.respectsIds] using he)
    · have hb : IsBlank s.name ∨ IsBlank s.village := by
        unfold ValidDraft at hv
        by_cases hn : IsBlank s.name
        · exact Or.inl hn
        · exact Or.inr (by_contra fun hvil => hv ⟨hn, hvil⟩)
      simp only [step, handle, run]
      rw [addWorker_rejected s resp _ hb]
      exact hu
  | deleteWorker id resp =>
    cases resp with
    | error err => exact hu
    | ok u => exact uniqueIds_filter s.workers _ hu
  | selectDistrict value => exact hu
  | changeName value => exact hu
  | changeVillage value => exact hu

/-- Along a sequence of events whose store answers keep ids distinct, the
ids of the collection stay pairwise distinct. -/
theorem runEvents_uniqueIds (es : List Event) (s : State) (hu : UniqueIds s.workers)
    (ht : traceRespectsIds s es = true) : UniqueIds (runEvents s es).workers := by
  induction es generalizing s with
  | nil => exact hu
  | cons e es ih =>
    simp only [traceRespectsIds, Bool.and_eq_true] at ht
    exact ih (step s e) (step_uniqueIds s e hu ht.1) ht.2

/-- The `useEffect` chain is its request followed by its callbacks. -/
theorem load_eq_halves (resp : Except String (List Worker)) :
    load resp =
      (do
        loadIssue
        loadResume resp) := by
  funext w
  cases resp <;> rfl

theorem addWorkerIssue_rejected (r : State) (w : World)
    (h : IsBlank r.name ∨ IsBlank r.village) :
    addWorkerIssue r w =
      .normal false
        { w with log := w.log ++ [.alert "Please provide both name and village."] } := by
  have hg := (guard_true_iff r).mpr h
  simp only [addWorkerIssue, hg, if_true]
  rfl

theorem addWorkerIssue_valid (r : State) (w : World) (h : ValidDraft r) :
    addWorkerIssue r w =
      .normal true
        { w with log := w.log ++ [.httpPost (API_URL ++ "/api/workers") r.name r.village] } := by
  have hg := (guard_false_iff r).mpr h
  simp only [addWorkerIssue, hg]
  rfl

/-- Under an answer of the store that keeps ids distinct, an action keeps
ids pairwise distinct in the displayed collection and in the collection of
every handler in flight. -/
theorem asyncStep_uniqueIds (sys : System) (a : Action) (h : sys.UniqueIds)
    (ha : a.respectsIds sys = true) : (asyncStep sys a).UniqueIds := by
  obtain ⟨hw, hp⟩ := h
  have happend : ∀ q : Pending, UniqueIds q.workers →
      ∀ p ∈ sys.pending ++ [q], UniqueIds p.workers := by
    intro q hq p hmem
    rcases List.mem_append.mp hmem with hmem | hmem
    · exact hp p hmem
    · rw [List.mem_singleton.mp hmem]
      exact hq
  have herase : ∀ i : Nat, ∀ p ∈ sys.pending.eraseIdx i, UniqueIds p.workers :=
    fun i p hmem => hp p (List.mem_of_mem_eraseIdx hmem)
  cases a with
  | clickAdd =>
    by_cases hv : ValidDraft sys.world.state
    · simp only [asyncStep]
      rw [addWorkerIssue_valid _ _ hv]
      exact ⟨hw, happend _ hw⟩
    · have hb : IsBlank sys.world.state.name ∨ IsBlank sys.world.state.village := by
        unfold ValidDraft at hv
        by_cases hn : IsBlank sys.world.state.name
        · exact Or.inl hn
        · exact Or.inr (by_contra fun hvil => hv ⟨hn, hvil⟩)
      simp only [asyncStep]
      rw [addWorkerIssue_rejected _ _ hb]
      exact ⟨hw, hp⟩
  | clickDelete id => exact ⟨hw, happend (.deleteWorker sys.world.state id) hw⟩
  | selectDistrict value => exact ⟨hw, hp⟩
  | changeName value => exact ⟨hw, hp⟩
  | changeVillage value => exact ⟨hw, hp⟩
  | loadSettles i resp =>
    cases hq : sys.pending[i]? with
    | none =>
      simp only [asyncStep, hq]
      exact ⟨hw, hp⟩
    | some q =>
      cases q with
      | load =>
        simp only [asyncStep, hq]
        refine ⟨?_, herase i⟩
        cases resp with
        | error err => exact hw
        | ok data => simpa [Action.respectsIds] using ha
      | addWorker r =>
        simp only [asyncStep, hq]
        exact ⟨hw, hp⟩
      | deleteWorker r id =>
        simp only [asyncStep, hq]
        exact ⟨hw, hp⟩
  | addSettles i resp =>
    cases hq : sys.pending[i]? with
    | none =>
      simp only [asyncStep, hq]
      exact ⟨hw, hp⟩
    | some q =>
      cases q with
      | load =>
        simp only [asyncStep, hq]
        exact ⟨hw, hp⟩
      | addWorker r =>
        simp only [asyncStep, hq]
        refine ⟨?_, herase i⟩
        have hr : UniqueIds r.workers := hp _ (List.getElem?_mem hq)
        cases resp with
        | error err => exact hw
        | ok data =>
          have hfresh : data._id ∉ r.workers.map (fun w => w._id) := by
            simpa [Action.respectsIds, hq] using ha
          exact uniqueIds_append_fresh r.workers data hr hfresh
      | deleteWorker r id =>
        simp only [asyncStep, hq]
        exact ⟨hw, hp⟩
  | deleteSettles i resp =>
    cases hq : sys.pending[i]? with
    | none =>
      simp only [asyncStep, hq]
      exact ⟨hw, hp⟩
    | some q =>
      cases q with
      | load =>
        simp only [asyncStep, hq]
        exact ⟨hw, hp⟩
      | addWorker r =>
        simp only [asyncStep, hq]
        exact ⟨hw, hp⟩
      | deleteWorker r id =>
        simp only [asyncStep, hq]
        refine ⟨?_, herase i⟩
        have hr : UniqueIds r.workers := hp _ (List.getElem?_mem hq)
        cases resp with
        | error err => exact hw
        | ok u => exact uniqueIds_filter r.workers _ hr

/-- Along a sequence of actions whose store answers keep ids distinct, ids
stay pairwise distinct. -/
theorem asyncRun_uniqueIds (as : List Action) (sys : System) (h : sys.UniqueIds)
    (ha : actionsRespectIds sys as = true) : (asyncRun sys as).UniqueIds := by
  induction as generalizing sys with
  | nil => exact h
  | cons a as ih =>
    simp only [actionsRespectIds, Bool.and_eq_true] at ha
    exact ih (asyncStep sys a) (asyncStep_uniqueIds sys a h ha.1) ha.2

theorem initialSystem_uniqueIds : initialSystem.UniqueIds := by
  refine ⟨by decide, ?_⟩
  intro p hp
  have : p = .load := by simpa [initialSystem] using hp
  rw [this]
  decide

/-- A handler run to completion is a click followed at once by the arrival
of its answer: the sequence of events is a case of the sequence of
actions. -/
theorem step_eq_click_then_settle (sys : System) (id : String)
    (ra : Except String Worker) (rd : Except String Unit) :
    (asyncRun sys [.clickAdd, .addSettles sys.pending.length ra]).world.state =
        step sys.world.state (.addWorker ra) ∧
    (asyncRun sys [.clickDelete id, .deleteSettles sys.pending.length rd]).world.state =
        step sys.world.state (.deleteWorker id rd) := by
  constructor
  · by_cases hv : ValidDraft sys.world.state
    · have hg := (guard_false_iff sys.world.state).mpr hv
      simp only [asyncRun, asyncStep, step, handle, run]
      rw [addWorkerIssue_valid _ _ hv]
      simp only [List.getElem?_concat_length, addWorker, hg]
      cases ra <;> rfl
    · have hb : IsBlank sys.world.state.name ∨ IsBlank sys.world.state.village := by
        unfold ValidDraft at hv
        by_cases hn : IsBlank sys.world.state.name
        · exact Or.inl hn
        · exact Or.inr (by_contra fun hvil => hv ⟨hn, hvil⟩)
      simp only [asyncRun, asyncStep, step, handle, run]
      rw [addWorkerIssue_rejected _ _ hb, addWorker_rejected _ _ _ hb]
      simp
      rfl
  · simp only [asyncRun, asyncStep, step, handle, run, List.getElem?_concat_length]
    cases rd <;> rfl

/-- A created record whose id is new for the displayed collection may
still repeat an id: with a create and a delete of id "1" in flight from
the collection of the one record of id "1", the delete answer arrives
first and empties the displayed collection; the create answer then brings
id "1", absent from the displayed collection, and the handler appends it
to the collection of its render. -/
theorem fresh_for_displayed_not_enough :
    (asyncRun initialSystem
        [.loadSettles 0 (.ok [⟨"1", "Kumar", "Alanganallur"⟩]),
         .changeName "Devi", .changeVillage "Usilampatti",
         .clickAdd, .clickDelete "1",
         .deleteSettles 1 (.ok ())]).world.state.workers = [] ∧
    (asyncRun initialSystem
        [.loadSettles 0 (.ok [⟨"1", "Kumar", "Alanganallur"⟩]),
         .changeName "Devi", .changeVillage "Usilampatti",
         .clickAdd, .clickDelete "1",
         .deleteSettles 1 (.ok ()),
         .addSettles 0 (.ok ⟨"1", "Devi", "Usilampatti"⟩)]).world.state.workers
      = [⟨"1", "Kumar", "Alanganallur"⟩, ⟨"1", "Devi", "Usilampatti"⟩] := by
  decide

/-- C5 (as stated, refuted): uniqueness of ids is not preserved for every
store response. From the initial state, a load answered with two records
of id "1" yields a collection with a repeated id; and from a collection
with distinct ids, `addWorker` answered with a record whose id is already
present yields a collection with a repeated id. -/
theorem uniqueIds_not_invariant :
    UniqueIds initialState.workers ∧
    ¬ UniqueIds (runEvents initialState
        [.load (.ok [⟨"1", "Kumar", "Alanganallur"⟩, ⟨"1", "Devi", "Usilampatti"⟩])]).workers ∧
    UniqueIds (runEvents initialState
        [.load (.ok [⟨"1", "Kumar", "Alanganallur"⟩]),
         .changeName "Devi", .changeVillage "Usilampatti"]).workers ∧
    ¬ UniqueIds (runEvents initialState
        [.load (.ok [⟨"1", "Kumar", "Alanganallur"⟩]),
         .changeName "Devi", .changeVillage "Usilampatti",
         .addWorker (.ok ⟨"1", "Devi", "Usilampatti"⟩)]).workers := by
  decide

/-- C5 (amended): uniqueness of ids holds in the initial state; it is
preserved by `deleteWorker`, by selecting a district, by editing the draft
and by every failed store call, whatever the store answers; it is
preserved by a successful load when the answered list has pairwise
distinct ids and by a successful `addWorker` when the answered record has
an id that no record has in the collection of the render that invoked
`addWorker` (the collection the handler appends to, which is the displayed
one when no other answer arrived in between). Hence it holds in every
state reached from the initial one under store answers that meet these two
conditions, whether each handler completes before the next event or
handlers are in flight together and their answers arrive in any order. -/
theorem uniqueIds_invariant_of_store :
    UniqueIds initialState.workers ∧
    (∀ (s : State) (e : Event), UniqueIds s.workers → e.respectsIds s = true →
      UniqueIds (step s e).workers) ∧
    (∀ (s : State) (id : String) (resp : Except String Unit), UniqueIds s.workers →
      UniqueIds (step s (.deleteWorker id resp)).workers) ∧
    (∀ (s : State) (value : String), UniqueIds s.workers →
      UniqueIds (step s (.selectDistrict value)).workers) ∧
    (∀ es : List Event, traceRespectsIds initialState es = true →
      UniqueIds (runEvents initialState es).workers) ∧
    (∀ (sys : System) (a : Action), sys.UniqueIds → a.respectsIds sys = true →
      (asyncStep sys a).UniqueIds) ∧
    (∀ as : List Action, actionsRespectIds initialSystem as = true →
      UniqueIds (asyncRun initialSystem as).world.state.workers) := by
  have h0 : UniqueIds initialState.workers := by decide
  exact ⟨h0, step_uniqueIds,
    fun s id resp hu => step_uniqueIds s _ hu rfl,
    fun s value hu => step_uniqueIds s _ hu rfl,
    fun es ht => runEvents_uniqueIds es initialState h0 ht,
    asyncStep_uniqueIds,
    fun as ha => (asyncRun_uniqueIds as initialSystem initialSystem_uniqueIds ha).1⟩

/-- Witness of C5 (amended): a load of one record, a draft, then a create
and a delete in flight together; the delete answer arrives first, the
create answer brings the new id "2". -/
theorem uniqueIds_invariant_of_store_witness :
    actionsRespectIds initialSystem
        [.loadSettles 0 (.ok [⟨"1", "Kumar", "Alanganallur"⟩]),
         .changeName "Devi", .changeVillage "Usilampatti",
         .clickAdd, .clickDelete "1",
         .deleteSettles 1 (.ok ()),
         .addSettles 0 (.ok ⟨"2", "Devi", "Usilampatti"⟩)] = true ∧
    UniqueIds (asyncRun initialSystem
        [.loadSettles 0 (.ok [⟨"1", "Kumar", "Alanganallur"⟩]),
         .changeName "Devi", .changeVillage "Usilampatti",
         .clickAdd, .clickDelete "1",
         .deleteSettles 1 (.ok ()),
         .addSettles 0 (.ok ⟨"2", "Devi", "Usilampatti"⟩)]).world.state.workers :=
  ⟨by decide, uniqueIds_invariant_of_store.2.2.2.2.2.2 _ (by decide)⟩

/-! ## A create and a delete in flight together -/

/-- Filtering by id after appending is appending after filtering, when the
appended record has another id. -/
theorem filter_append_comm (ws : List Worker) (data : Worker) (id : String)
    (h : data._id ≠ id) :
    (ws ++ [data]).filter (fun w => w._id != id) =
      ws.filter (fun w => w._id != id) ++ [data] := by
  simp [List.filter_append, List.filter_cons, h]

theorem raceCreateFirst_workers (s : State) (id : String) (data : Worker)
    (h : ValidDraft s) :
    (run (raceCreateFirst s id (.ok data) (.ok ())) s).world.state.workers =
      s.workers.filter (fun w => w._id != id) := by
  have hg := (guard_false_iff s).mpr h
  simp only [run, raceCreateFirst, addWorkerIssue, hg]
  rfl

theorem raceDeleteFirst_workers (s : State) (id : String) (data : Worker)
    (h : ValidDraft s) :
    (run (raceDeleteFirst s id (.ok data) (.ok ())) s).world.state.workers =
      s.workers ++ [data] := by
  have hg := (guard_false_iff s).mpr h
  simp only [run, raceDeleteFirst, addWorkerIssue, hg]
  rfl

/-- C6 (as stated, refuted): with the collection holding the one record of
id "1", the valid draft ("Devi", "Usilampatti"), `addWorker` answered with
the record of id "2" and `deleteWorker("1")` both invoked in that render
and both answered with success, the final collection depends on which
answer arrives first: it is empty when the create answer arrives first and
holds both records when the delete answer arrives first; in neither order
is it the collection with id "1" filtered out and the new record
appended. -/
theorem race_final_collection_depends_on_order :
    ValidDraft { initialState with
      workers := [⟨"1", "Kumar", "Alanganallur"⟩], name := "Devi", village := "Usilampatti" } ∧
    (run (raceCreateFirst { initialState with
          workers := [⟨"1", "Kumar", "Alanganallur"⟩], name := "Devi", village := "Usilampatti" }
        "1" (.ok ⟨"2", "Devi", "Usilampatti"⟩) (.ok ()))
      { initialState with
          workers := [⟨"1", "Kumar", "Alanganallur"⟩], name := "Devi", village := "Usilampatti" }
      ).world.state.workers = [] ∧
    (run (raceDeleteFirst { initialState with
          workers := [⟨"1", "Kumar", "Alanganallur"⟩], name := "Devi", village := "Usilampatti" }
        "1" (.ok ⟨"2", "Devi", "Usilampatti"⟩) (.ok ()))
      { initialState with
          workers := [⟨"1", "Kumar", "Alanganallur"⟩], name := "Devi", village := "Usilampatti" }
      ).world.state.workers
      = [⟨"1", "Kumar", "Alanganallur"⟩, ⟨"2", "Devi", "Usilampatti"⟩] ∧
    ([⟨"1", "Kumar", "Alanganallur"⟩] : List Worker).filter (fun w => w._id != "1") ++
        [⟨"2", "Devi", "Usilampatti"⟩] = [⟨"2", "Devi", "Usilampatti"⟩] := by
  decide

/-- C6 (amended): let `addWorker` (valid draft, answered with record
`data`) and `deleteWorker(id)` both succeed, with the id of `data`
different from `id`. When one handler is invoked after the other has
completed, the final collection is the same in both orders, namely the
collection with the records of that id filtered out and `data` appended.
When both are invoked in the same render, each update is computed from the
collection of that render and the answer that arrives last replaces the
collection: the filtered collection if the delete answer arrives last, the
collection followed by `data` if the create answer arrives last. -/
theorem add_delete_orders (s : State) (id : String) (data : Worker)
    (h : ValidDraft s) (hid : data._id ≠ id) :
    (runEvents s [.addWorker (.ok data), .deleteWorker id (.ok ())]).workers =
        s.workers.filter (fun w => w._id != id) ++ [data] ∧
    (runEvents s [.deleteWorker id (.ok ()), .addWorker (.ok data)]).workers =
        s.workers.filter (fun w => w._id != id) ++ [data] ∧
    (run (raceCreateFirst s id (.ok data) (.ok ())) s).world.state.workers =
        s.workers.filter (fun w => w._id != id) ∧
    (run (raceDeleteFirst s id (.ok data) (.ok ())) s).world.state.workers =
        s.workers ++ [data] := by
  refine ⟨?_, ?_, raceCreateFirst_workers s id data h, raceDeleteFirst_workers s id data h⟩
  · have h1 : step s (.addWorker (.ok data)) =
        { s with workers := s.workers ++ [data], name := "", village := "" } := by
      simp only [step, handle, run]
      rw [addWorker_ok s data _ h]
      rfl
    simp only [runEvents, h1]
    exact filter_append_comm s.workers data id hid
  · have h1 : step s (.deleteWorker id (.ok ())) =
        { s with workers := s.workers.filter (fun w => w._id != id) } := rfl
    have hv : ValidDraft { s with workers := s.workers.filter (fun w => w._id != id) } := h
    simp only [runEvents]
    rw [h1]
    simp only [step, handle, run]
    rw [addWorker_ok _ data _ hv]
    rfl

/-- Witness of C6 (amended): the collection of one record of id "1", the
draft ("Devi", "Usilampatti"), the store answering with id "2". -/
theorem add_delete_orders_witness :
    ValidDraft { initialState with
      workers := [⟨"1", "Kumar", "Alanganallur"⟩], name := "Devi", village := "Usilampatti" } ∧
    (Worker.mk "2" "Devi" "Usilampatti")._id ≠ "1" ∧
    (runEvents { initialState with
          workers := [⟨"1", "Kumar", "Alanganallur"⟩], name := "Devi", village := "Usilampatti" }
        [.addWorker (.ok ⟨"2", "Devi", "Usilampatti"⟩), .deleteWorker "1" (.ok ())]).workers =
      ([⟨"1", "Kumar", "Alanganallur"⟩] : List Worker).filter (fun w => w._id != "1") ++
        [⟨"2", "Devi", "Usilampatti"⟩] :=
  ⟨by decide, by decide,
   (add_delete_orders { initialState with
        workers := [⟨"1", "Kumar", "Alanganallur"⟩], name := "Devi", village := "Usilampatti" }
      "1" ⟨"2", "Devi", "Usilampatti"⟩ (by decide) (by decide)).1⟩

/-! ## What a delete keeps -/

/-- C7: for every collection and every id, a successful `deleteWorker(id)`
yields exactly the records of the original collection whose `_id` differs
from `id`: the result is a sublist of the original (records unchanged, in
their original relative order), a record is in the result exactly when it
is in the original with another id, each such record occurs as many times
as before, and when no record has that id the collection is unchanged. -/
theorem deleteWorker_keeps_others (s : State) (id : String) :
    (run (deleteWorker s id (.ok ())) s).world.state.workers.Sublist s.workers ∧
    (∀ w, w ∈ (run (deleteWorker s id (.ok ())) s).world.state.workers ↔
      (w ∈ s.workers ∧ w._id ≠ id)) ∧
    (∀ w, w._id ≠ id →
      (run (deleteWorker s id (.ok ())) s).world.state.workers.count w = s.workers.count w) ∧
    ((∀ w ∈ s.workers, w._id ≠ id) →
      (run (deleteWorker s id (.ok ())) s).world.state.workers = s.workers) := by
  rw [deleteWorker_workers]
  refine ⟨List.filter_sublist _, ?_, ?_, ?_⟩
  · intro w
    simp [List.mem_filter]
  · intro w hw
    rw [List.count_filter]
    simpa using hw
  · intro hall
    rw [List.filter_eq_self]
    intro w hw
    simpa using hall w hw

/-- Witness of C7: the scenario `DeleteWorker("1")` of the specification
(the other record is untouched), and a delete of an id that no record
has. -/
theorem deleteWorker_keeps_others_witness :
    ((Worker.mk "2" "Devi" "Usilampatti")._id ≠ "1" ∧
      (run (deleteWorker { initialState with
            workers := [⟨"1", "Kumar", "Alanganallur"⟩, ⟨"2", "Devi", "Usilampatti"⟩] }
          "1" (.ok ()))
        { initialState with
            workers := [⟨"1", "Kumar", "Alanganallur"⟩, ⟨"2", "Devi", "Usilampatti"⟩] }
        ).world.state.workers.count ⟨"2", "Devi", "Usilampatti"⟩ =
      ([⟨"1", "Kumar", "Alanganallur"⟩, ⟨"2", "Devi", "Usilampatti"⟩] : List Worker).count
        ⟨"2", "Devi", "Usilampatti"⟩) ∧
    ((∀ w ∈ ({ initialState with workers := [⟨"1", "Kumar", "Alanganallur"⟩] } : State).workers,
        w._id ≠ "9") ∧
      (run (deleteWorker { initialState with workers := [⟨"1", "Kumar", "Alanganallur"⟩] }
          "9" (.ok ()))
        { initialState with workers := [⟨"1", "Kumar", "Alanganallur"⟩] }).world.state.workers
        = [⟨"1", "Kumar", "Alanganallur"⟩]) :=
  ⟨⟨by decide,
    (deleteWorker_keeps_others
      { initialState with
          workers := [⟨"1", "Kumar", "Alanganallur"⟩, ⟨"2", "Devi", "Usilampatti"⟩] }
      "1").2.2.1 ⟨"2", "Devi", "Usilampatti"⟩ (by decide)⟩,
   ⟨by decide,
    (deleteWorker_keeps_others
      { initialState with workers := [⟨"1", "Kumar", "Alanganallur"⟩] } "9").2.2.2
      (by decide)⟩⟩


/-! ## Load, district selection, and the state after a create -/

/-- C8: the initial state has an empty collection and the loading flag
set. Load started from it: if the store answers the list call with list
`L`, the handler returns normally and the state has collection exactly `L`
and loading flag false; if the call fails, the handler returns normally
(no error escapes) and the state has an empty collection and loading flag
false. In both cases the draft and the selected district are those of the
initial state. -/
theorem load_from_initialState :
    (initialState.workers = [] ∧ initialState.loading = true) ∧
    (∀ L : List Worker,
      (run (load (.ok L)) initialState).returns = true ∧
      (run (load (.ok L)) initialState).world.state.workers = L ∧
      (run (load (.ok L)) initialState).world.state.loading = false ∧
      (run (load (.ok L)) initialState).world.state.name = initialState.name ∧
      (run (load (.ok L)) initialState).world.state.village = initialState.village ∧
      (run (load (.ok L)) initialState).world.state.district = initialState.district) ∧
    (∀ err : String,
      (run (load (.error err)) initialState).returns = true ∧
      (run (load (.error err)) initialState).world.state.workers = [] ∧
      (run (load (.error err)) initialState).world.state.loading = false ∧
      (run (load (.error err)) initialState).world.state.name = initialState.name ∧
      (run (load (.error err)) initialState).world.state.village = initialState.village ∧
      (run (load (.error err)) initialState).world.state.district = initialState.district) :=
  ⟨⟨rfl, rfl⟩, fun _ => ⟨rfl, rfl, rfl, rfl, rfl, rfl⟩, fun _ => ⟨rfl, rfl, rfl, rfl, rfl, rfl⟩⟩

/-- For each option of the select the data row of the chart is the row of
the table, whatever the prototype answers. -/
theorem chartData_of_options (proto : String → Bool) (s : State) :
    (chartData proto (run (selectDistrict "Madurai") s).world.state).datasets.map
        (fun d => d.data) = [.row [65, 78, 90, 80, 85]] ∧
    (chartData proto (run (selectDistrict "Salem") s).world.state).datasets.map
        (fun d => d.data) = [.row [55, 68, 72, 69, 80]] ∧
    (chartData proto (run (selectDistrict "Theni") s).world.state).datasets.map
        (fun d => d.data) = [.row [45, 60, 58, 62, 70]] ∧
    (chartData proto (run (selectDistrict "Dindigul") s).world.state).datasets.map
        (fun d => d.data) = [.row [70, 82, 88, 79, 91]] :=
  ⟨rfl, rfl, rfl, rfl⟩

/-- For a string that is no key of the table the data of the chart is what
the prototype gives: an inherited value for "constructor", `undefined` for
"Chennai". -/
theorem chartData_of_other_strings (s : State) :
    (chartData (fun k => objectPrototypeKeys.contains k)
        (run (selectDistrict "constructor") s).world.state).datasets.map
        (fun d => d.data) = [.inherited "constructor"] ∧
    (chartData (fun k => objectPrototypeKeys.contains k)
        (run (selectDistrict "Chennai") s).world.state).datasets.map
        (fun d => d.data) = [.undefined] := by
  constructor
  · show [districtDataGet (fun k => objectPrototypeKeys.contains k) "constructor"] =
      [Lookup.inherited "constructor"]
    decide
  · show [districtDataGet (fun k => objectPrototypeKeys.contains k) "Chennai"] =
      [Lookup.undefined]
    decide

/-- C9: for every state and every district string, selecting that district
returns normally, issues no request (the log stays empty) and changes only
the selected-district field: the worker collection, the draft name and
village and the loading flag are unchanged. The chart dataset of the new
state is derived from the selected string alone: it is the same from
whatever state the string was selected, and its label is the string
followed by " Performance". -/
theorem selectDistrict_changes_only_district (s : State) (value : String) :
    (run (selectDistrict value) s).returns = true ∧
    (run (selectDistrict value) s).world.log = [] ∧
    (run (selectDistrict value) s).world.state = { s with district := value } ∧
    (run (selectDistrict value) s).world.state.workers = s.workers ∧
    (run (selectDistrict value) s).world.state.name = s.name ∧
    (run (selectDistrict value) s).world.state.village = s.village ∧
    (run (selectDistrict value) s).world.state.loading = s.loading ∧
    (run (selectDistrict value) s).world.state.district = value ∧
    (∀ (proto : String → Bool) (s2 : State),
      chartData proto (run (selectDistrict value) s2).world.state =
        chartData proto (run (selectDistrict value) s).world.state) ∧
    (∀ proto : String → Bool,
      (chartData proto (run (selectDistrict value) s).world.state).datasets.map
        (fun d => d.label) = [value ++ " Performance"]) :=
  ⟨rfl, rfl, rfl, rfl, rfl, rfl, rfl, rfl, fun _ _ => rfl, fun _ => rfl⟩

/-- C10: for every state with a valid draft and every record `data` the
store answers the create request with, `addWorker` returns normally with
the draft name and village both the empty string and the collection equal
to the prior collection followed by exactly `data`; the loading flag and
the selected district are unchanged. The only request issued is the create
request, which carries the draft name and village and no id. -/
theorem addWorker_success_state (s : State) (data : Worker) (h : ValidDraft s) :
    (run (addWorker s (.ok data)) s).returns = true ∧
    (run (addWorker s (.ok data)) s).world.state.name = "" ∧
    (run (addWorker s (.ok data)) s).world.state.village = "" ∧
    (run (addWorker s (.ok data)) s).world.state.workers = s.workers ++ [data] ∧
    (run (addWorker s (.ok data)) s).world.state.loading = s.loading ∧
    (run (addWorker s (.ok data)) s).world.state.district = s.district ∧
    (run (addWorker s (.ok data)) s).world.log =
      [.httpPost (API_URL ++ "/api/workers") s.name s.village] := by
  unfold run
  rw [addWorker_ok s data _ h]
  exact ⟨rfl, rfl, rfl, rfl, rfl, rfl, rfl⟩

/-- Witness of C10: the scenario `AddWorker("Devi", "Usilampatti")` of the
specification, after a load of one record. -/
theorem addWorker_success_state_witness :
    ValidDraft { initialState with
      workers := [⟨"1", "Kumar", "Alanganallur"⟩], name := "Devi", village := "Usilampatti",
      loading := false } ∧
    (run (addWorker { initialState with
          workers := [⟨"1", "Kumar", "Alanganallur"⟩], name := "Devi", village := "Usilampatti",
          loading := false }
        (.ok ⟨"2", "Devi", "Usilampatti"⟩))
      { initialState with
          workers := [⟨"1", "Kumar", "Alanganallur"⟩], name := "Devi", village := "Usilampatti",
          loading := false }).world.state.workers
      = [⟨"1", "Kumar", "Alanganallur"⟩] ++ [⟨"2", "Devi", "Usilampatti"⟩] :=
  ⟨by decide,
   (addWorker_success_state { initialState with
        workers := [⟨"1", "Kumar", "Alanganallur"⟩], name := "Devi", village := "Usilampatti",
        loading := false }
      ⟨"2", "Devi", "Usilampatti"⟩ (by decide)).2.2.2.1⟩

end App
